import Mathlib

/-!
Shallow embedding of the order-settlement core of the digital-goods
marketplace backend (src/api/payment.js, src/lib/middleware.js).

The document store (Firestore) is modelled as association lists keyed by
document id.  JS numbers that carry money are modelled as rationals.
Server timestamps are modelled as a `now : Nat` parameter supplied to each
operation.  External capabilities — the HMAC primitive, the JSON parser for
the webhook body, the payment gateway, and the block encryption of the
link cipher — are passed in as explicit function/`Option` parameters, as the
routes only consume their results.  Push notifications (FCM) never touch
the store and never throw, so they are not modelled.
-/

/-- Order status strings `"pending" | "completed" | "failed"`. -/
inductive OrderStatus where
  | pending
  | completed
  | failed
deriving DecidableEq

/-- An `orders` document (created by POST /api/payment/create, mutated by the
webhook). -/
structure Order where
  orderId : String
  buyerId : String
  sellerId : String
  productId : String
  amount : ℚ
  status : OrderStatus
  platformFee : Option ℚ := none
  sellerEarning : Option ℚ := none
  createdAt : Nat := 0
  completedAt : Option Nat := none
  failedAt : Option Nat := none
deriving DecidableEq

/-- The fields of a `users` document relevant to settlement. -/
structure User where
  role : String := "buyer"
  walletBalance : ℚ := 0
  totalEarnings : ℚ := 0
  purchases : List String := []
deriving DecidableEq

/-- The fields of a `products` document relevant to the core.
`downloadLink` holds the encrypted envelope (or `none` if unset). -/
structure Product where
  title : String := ""
  sellerId : String
  price : ℚ
  discountPrice : Option ℚ := none
  status : String := "approved"
  clicks : Nat := 0
  sales : Nat := 0
  downloadLink : Option String := none
deriving DecidableEq

/-- A `download_tokens` document. -/
structure DownloadToken where
  token : String
  userId : String
  productId : String
  decryptedLink : String
  used : Bool
  expiresAt : Nat
  createdAt : Nat
  usedAt : Option Nat := none
deriving DecidableEq

/-- The `config/app_config` document (only the commission rate matters to
settlement; `none` models a missing/null field). -/
structure Config where
  commissionRate : Option ℚ := none
deriving DecidableEq

/-- The document store: `orders`, `users`, `products`, `download_tokens`
collections and the app-config document. -/
structure Store where
  orders : List (String × Order) := []
  users : List (String × User) := []
  products : List (String × Product) := []
  downloadTokens : List (String × DownloadToken) := []
  config : Option Config := none
deriving DecidableEq

/-- `collection.doc(k).get()`: first binding for key `k`. -/
def lookupA {α : Type} (l : List (String × α)) (k : String) : Option α :=
  (l.find? (fun p => p.1 == k)).map (fun p => p.2)

/-- `doc(k).update(f)` / a batch update: rewrite the binding(s) for `k`
field-wise, leaving every other document untouched. -/
def updateA {α : Type} (l : List (String × α)) (k : String) (f : α → α) :
    List (String × α) :=
  l.map (fun p => if p.1 == k then (p.1, f p.2) else p)

/-- `doc(k).set(v)` for a fresh key: prepend the binding. -/
def insertA {α : Type} (l : List (String × α)) (k : String) (v : α) :
    List (String × α) :=
  (k, v) :: l

/-- The duplicate-purchase / purchase-proof query:
`orders.where(buyerId==uid).where(productId==pid).where(status=="completed")`
is non-empty. -/
def hasCompletedOrder (orders : List (String × Order)) (uid pid : String) :
    Bool :=
  orders.any (fun p =>
    p.2.buyerId == uid && p.2.productId == pid &&
      decide (p.2.status = OrderStatus.completed))

/-- `configDoc.exists ? configDoc.data().commissionRate || 10 : 10` —
a missing document, a missing field, or a falsy (zero) rate all fall back
to the default rate 10. -/
def commissionOf (cfg : Option Config) : ℚ :=
  match cfg with
  | none => 10
  | some c =>
    match c.commissionRate with
    | none => 10
    | some r => if r = 0 then 10 else r

/-- Webhook acknowledgement bodies; every one is sent with HTTP 200. -/
inductive Ack where
  | signatureMissing
  | invalidSignature
  | missingOrderId
  | orderNotFound
  | alreadyCompleted
  | ok
  | error
deriving DecidableEq

/-- The parsed webhook event: `event?.data?.payment?.payment_status` and
`event?.data?.order?.order_id` (each may be absent). -/
structure Event where
  paymentStatus : Option String := none
  orderId : Option String := none
deriving DecidableEq

/-- The SUCCESS settlement batch (payment.js lines 179–211): read the
commission rate, compute fee and earning from the stored order amount,
then atomically (all-or-nothing) mark the order completed, credit the
seller wallet and total earnings, bump the product sale counter, and
`arrayUnion` the product into the buyer purchase list.  A batch whose
referenced seller/product/buyer document is missing fails as a whole
(caught by the try/catch of the route → `error` ack, store untouched). -/
def settle (st : Store) (oid : String) (order : Order) (now : Nat) :
    Store × Ack :=
  match lookupA st.users order.sellerId, lookupA st.products order.productId,
      lookupA st.users order.buyerId with
  | some _, some _, some _ =>
    let rate := commissionOf st.config
    let platformFee := order.amount * (rate / 100)
    let sellerEarning := order.amount - platformFee
    ({ st with
        orders := updateA st.orders oid (fun o =>
          { o with
              status := OrderStatus.completed
              platformFee := some platformFee
              sellerEarning := some sellerEarning
              completedAt := some now }),
        users := updateA
          (updateA st.users order.sellerId (fun u =>
            { u with
                walletBalance := u.walletBalance + sellerEarning
                totalEarnings := u.totalEarnings + sellerEarning }))
          order.buyerId (fun u =>
            { u with
                purchases :=
                  if order.productId ∈ u.purchases then u.purchases
                  else u.purchases ++ [order.productId] }),
        products := updateA st.products order.productId (fun p =>
          { p with sales := p.sales + 1 }) },
     Ack.ok)
  | _, _, _ => (st, Ack.error)

/-- Behaviour of the webhook after a valid signature and successful JSON
parse (payment.js lines 152–250): extract ids, load the order, apply the
idempotency gate and the SUCCESS/FAILED/other branches. -/
def webhookBody (st : Store) (now : Nat) (paymentStatus : Option String)
    (orderId : Option String) : Store × Ack :=
  match orderId with
  | none => (st, Ack.missingOrderId)
  | some oid =>
    match lookupA st.orders oid with
    | none => (st, Ack.orderNotFound)
    | some order =>
      if paymentStatus = some "SUCCESS" then
        if order.status = OrderStatus.completed then
          (st, Ack.alreadyCompleted)
        else settle st oid order now
      else if paymentStatus = some "FAILED" then
        if order.status = OrderStatus.completed then (st, Ack.ok)
        else
          ({ st with
              orders := updateA st.orders oid (fun o =>
                { o with
                    status := OrderStatus.failed
                    failedAt := some now }) },
           Ack.ok)
      else (st, Ack.ok)

/-- POST /api/payment/webhook (payment.js lines 127–255).  `hmac key msg`
stands for `base64(HMAC-SHA256(msg, key))`; `parse` stands for
`JSON.parse` followed by the optional-chained field extraction (`none`
models a parse exception, caught by the route → `error` ack).  Missing or
empty signature/timestamp headers, or a signature mismatch, are rejected
before any store access. -/
def handleCallback (hmac : String → String → String)
    (parse : String → Option Event) (secret : String) (now : Nat)
    (rawBody : String) (signature timestamp : Option String) (st : Store) :
    Store × Ack :=
  match signature, timestamp with
  | some sig, some ts =>
    if sig = "" ∨ ts = "" then (st, Ack.signatureMissing)
    else
      let expected := hmac secret (ts ++ rawBody)
      if expected = sig then
        match parse rawBody with
        | none => (st, Ack.error)
        | some ev => webhookBody st now ev.paymentStatus ev.orderId
      else (st, Ack.invalidSignature)
  | _, _ => (st, Ack.signatureMissing)

/-- Responses of POST /api/payment/create. -/
inductive CreateRes where
  | badRequest
  | productNotFound
  | buyerNotFound
  | notAvailable
  | alreadyPurchased
  | gatewayError
  | created (paymentSessionId : String) (orderId : String)
deriving DecidableEq

/-- POST /api/payment/create (payment.js lines 32–121).  `gw` is the result
of `Cashfree.PGCreateOrder` for this request: `some sessionId` on success,
`none` when the gateway call throws (→ 502, nothing persisted).
`newOrderId` stands for the freshly generated `ORD_…` id.  The charge
amount is `discountPrice || price` (a null or zero discount falls back to
the list price). -/
def initiate (st : Store) (uid : String) (productId : Option String)
    (newOrderId : String) (gw : Option String) (now : Nat) :
    Store × CreateRes :=
  match productId with
  | none => (st, CreateRes.badRequest)
  | some pid =>
    match lookupA st.products pid with
    | none => (st, CreateRes.productNotFound)
    | some product =>
      match lookupA st.users uid with
      | none => (st, CreateRes.buyerNotFound)
      | some _ =>
        if product.status ≠ "approved" then (st, CreateRes.notAvailable)
        else if hasCompletedOrder st.orders uid pid then
          (st, CreateRes.alreadyPurchased)
        else
          let orderAmount :=
            match product.discountPrice with
            | none => product.price
            | some d => if d = 0 then product.price else d
          match gw with
          | none => (st, CreateRes.gatewayError)
          | some sessionId =>
            let order : Order :=
              { orderId := newOrderId
                buyerId := uid
                sellerId := product.sellerId
                productId := pid
                amount := orderAmount
                status := OrderStatus.pending
                createdAt := now }
            ({ st with orders := insertA st.orders newOrderId order },
             CreateRes.created sessionId newOrderId)

/-- Responses of POST /api/products/create. -/
inductive ProductRes where
  | forbidden
  | badRequest
  | created (productId : String)
deriving DecidableEq

/-- POST /api/products/create (payment.js lines 500–548), restricted to the
fields the core model keeps.  `enc` is the `encryptLink` of the link cipher
(IV generation included); the stored `downloadLink` is always the
encrypted envelope of the submitted plaintext location. -/
def createProduct (enc : String → String) (st : Store) (uid : String)
    (title description : String) (price : ℚ) (discountPrice : Option ℚ)
    (category downloadLink : String) (newId : String) : Store × ProductRes :=
  match lookupA st.users uid with
  | none => (st, ProductRes.forbidden)
  | some u =>
    if u.role ≠ "seller" then (st, ProductRes.forbidden)
    else if title = "" ∨ description = "" ∨ price = 0 ∨ category = "" ∨
        downloadLink = "" then
      (st, ProductRes.badRequest)
    else
      let product : Product :=
        { title := title
          sellerId := uid
          price := price
          discountPrice :=
            match discountPrice with
            | none => none
            | some d => if d = 0 then none else some d
          status := "approved"
          sales := 0
          downloadLink := some (enc downloadLink) }
      ({ st with products := insertA st.products newId product },
       ProductRes.created newId)

/-- Responses of GET /api/download/request/:productId. -/
inductive TokenRes where
  | purchaseRequired
  | productNotFound
  | notConfigured
  | issued (token : String)
deriving DecidableEq

/-- The download-token document written by GET /api/download/request: the
decrypted location, `used=false`, and a 10-minute (600000 ms) expiry. -/
def issuedToken (uid pid tok link : String) (now : Nat) : DownloadToken :=
  { token := tok
    userId := uid
    productId := pid
    decryptedLink := link
    used := false
    expiresAt := now + 600000
    createdAt := now }

/-- The redemption mutation: `update({ used: true, usedAt: now })`. -/
def markUsed (now : Nat) (t : DownloadToken) : DownloadToken :=
  { t with used := true, usedAt := some now }

/-- GET /api/download/request/:productId (payment.js lines 729–776).
`dec` is the `decryptLink` of the link cipher; `newToken` stands for the
freshly generated high-entropy token value.  The token document stores the
decrypted location and expires 10 minutes (600000 ms) after issuance. -/
def requestToken (dec : String → String) (st : Store) (uid pid : String)
    (newToken : String) (now : Nat) : Store × TokenRes :=
  if hasCompletedOrder st.orders uid pid then
    match lookupA st.products pid with
    | none => (st, TokenRes.productNotFound)
    | some product =>
      match product.downloadLink with
      | none => (st, TokenRes.notConfigured)
      | some encryptedLink =>
        if encryptedLink = "" then (st, TokenRes.notConfigured)
        else
          ({ st with
              downloadTokens := insertA st.downloadTokens newToken
                (issuedToken uid pid newToken (dec encryptedLink) now) },
           TokenRes.issued newToken)
  else (st, TokenRes.purchaseRequired)

/-- Responses of GET /api/download/:token. -/
inductive RedeemRes where
  | notFound
  | gone
  | redirect (target : String)
deriving DecidableEq

/-- GET /api/download/:token (payment.js lines 779–817): a missing token is
404; a used or expired token is 410 Gone; otherwise the token is marked
used and the caller is redirected to the stored decrypted location. -/
def redeem (st : Store) (tok : String) (now : Nat) : Store × RedeemRes :=
  match lookupA st.downloadTokens tok with
  | none => (st, RedeemRes.notFound)
  | some td =>
    if td.used then (st, RedeemRes.gone)
    else if td.expiresAt < now then (st, RedeemRes.gone)
    else
      ({ st with
          downloadTokens := updateA st.downloadTokens tok (markUsed now) },
       RedeemRes.redirect td.decryptedLink)

/-- POST /api/products/click/:id (payment.js lines 459–470): increment the
click counter of the product; a missing document makes the update throw
(500 response) with no mutation, which the keyless no-op of `updateA`
matches. -/
def clickProduct (st : Store) (pid : String) : Store :=
  { st with
      products := updateA st.products pid (fun p =>
        { p with clicks := p.clicks + 1 }) }

/-- DELETE /api/products/:id and DELETE /api/admin/products/:id
(payment.js lines 551–575 and 1109–1132): after the existence and
authorisation checks, the product document is deleted.  Modelled as the
store mutation; the rejecting paths leave the store unchanged and are
covered by the reflexive closure. -/
def deleteProduct (st : Store) (pid : String) : Store :=
  { st with products := st.products.filter (fun p => p.1 != pid) }

/-- One observable mutation of the store by the API surface modelled here:
a purchase initiation, a webhook delivery (with arbitrary per-request
HMAC/parse capabilities), a product creation — which always encrypts with
the process-wide cipher `enc` — a click, a product deletion, a download
token issuance (decrypting with the process-wide `dec`), or a token
redemption. -/
inductive Step (enc dec : String → String) : Store → Store → Prop where
  | doInitiate (st : Store) (uid : String) (productId : Option String)
      (nid : String) (gw : Option String) (now : Nat) :
      Step enc dec st (initiate st uid productId nid gw now).1
  | doWebhook (st : Store) (hmac : String → String → String)
      (parse : String → Option Event) (secret : String) (now : Nat)
      (rawBody : String) (sig ts : Option String) :
      Step enc dec st
        (handleCallback hmac parse secret now rawBody sig ts st).1
  | doCreateProduct (st : Store) (uid t d cat link nid : String) (price : ℚ)
      (dp : Option ℚ) :
      Step enc dec st (createProduct enc st uid t d price dp cat link nid).1
  | doClick (st : Store) (pid : String) :
      Step enc dec st (clickProduct st pid)
  | doDelete (st : Store) (pid : String) :
      Step enc dec st (deleteProduct st pid)
  | doRequestToken (st : Store) (uid pid tok : String) (now : Nat) :
      Step enc dec st (requestToken dec st uid pid tok now).1
  | doRedeem (st : Store) (tok : String) (now : Nat) :
      Step enc dec st (redeem st tok now).1

/-- Reachability: any finite sequence of the above operations. -/
def Reachable (enc dec : String → String) : Store → Store → Prop :=
  Relation.ReflTransGen (Step enc dec)

/-- The at-rest invariant for the products collection: every stored
download link is an encryption envelope, i.e. in the image of the
process-wide `enc`. -/
def ProductsEncrypted (enc : String → String) (st : Store) : Prop :=
  ∀ k p, lookupA st.products k = some p →
    ∀ e, p.downloadLink = some e → ∃ plain, e = enc plain

/-!
Concrete instances used by the closed witnesses and counterexamples below:
a fixed deterministic HMAC stand-in, fixed parsed events, a small catalogue
with buyer `B`, seller `S` and product `P`, and a toy invertible link
cipher.  With secret `"sec"`, timestamp header `"t"` and raw body `"b"`,
the matching signature under `hmacK` is `"sec|tb"`.
-/

def hmacK : String → String → String := fun key msg => key ++ "|" ++ msg

def parseSuccessO1 : String → Option Event := fun _ =>
  some { paymentStatus := some "SUCCESS", orderId := some "O1" }

def parseSuccessO2 : String → Option Event := fun _ =>
  some { paymentStatus := some "SUCCESS", orderId := some "O2" }

def parseFailedO1 : String → Option Event := fun _ =>
  some { paymentStatus := some "FAILED", orderId := some "O1" }

def buyerK : User := { role := "buyer" }

def sellerK : User := { role := "seller" }

def productK : Product := { sellerId := "S", price := 1000 }

def orderPending : Order :=
  { orderId := "O1"
    buyerId := "B"
    sellerId := "S"
    productId := "P"
    amount := 1000
    status := OrderStatus.pending }

def orderCompleted : Order :=
  { orderPending with status := OrderStatus.completed }

def orderFailed : Order :=
  { orderPending with status := OrderStatus.failed }

def stPending : Store :=
  { orders := [("O1", orderPending)]
    users := [("B", buyerK), ("S", sellerK)]
    products := [("P", productK)]
    config := some { commissionRate := some 10 } }

def stCompleted : Store :=
  { stPending with orders := [("O1", orderCompleted)] }

def stFailed : Store :=
  { stPending with orders := [("O1", orderFailed)] }

def stZeroRate : Store :=
  { stPending with config := some { commissionRate := some 0 } }

def encK : String → String := fun s => "iv:" ++ s

def decK : String → String := fun s => s.drop 3

def productEnc : Product :=
  { sellerId := "S"
    price := 1000
    downloadLink := some (encK "https://example.com/file") }

def stPurchased : Store :=
  { orders := [("O1", orderCompleted)]
    users := [("B", buyerK), ("S", sellerK)]
    products := [("P", productEnc)]
    config := some { commissionRate := some 10 } }

def stMarket : Store :=
  { users := [("B", buyerK), ("S", sellerK)]
    products := [("P", productK)]
    config := some { commissionRate := some 10 } }

def c7step1 : Store := (initiate stMarket "B" (some "P") "O1" (some "s1") 0).1

def c7step2 : Store := (initiate c7step1 "B" (some "P") "O2" (some "s2") 1).1

def c7step3 : Store :=
  (handleCallback hmacK parseSuccessO1 "sec" 2 "b" (some "sec|tb") (some "t")
    c7step2).1

def c7step4 : Store :=
  (handleCallback hmacK parseSuccessO2 "sec" 3 "b" (some "sec|tb") (some "t")
    c7step3).1


theorem lookupA_cons {α : Type} (q : String × α) (l : List (String × α))
    (k : String) :
    lookupA (q :: l) k = if q.1 == k then some q.2 else lookupA l k := by
  simp only [lookupA, List.find?_cons]
  cases hb : q.1 == k <;> simp [hb]

theorem updateA_cons {α : Type} (q : String × α) (l : List (String × α))
    (k : String) (f : α → α) :
    updateA (q :: l) k f =
      (if q.1 == k then (q.1, f q.2) else q) :: updateA l k f := rfl

theorem lookupA_updateA_self {α : Type} (l : List (String × α)) (k : String)
    (f : α → α) : lookupA (updateA l k f) k = (lookupA l k).map f := by
  induction l with
  | nil => rfl
  | cons q t ih =>
    rw [updateA_cons]
    cases hb : q.1 == k <;> simp [lookupA_cons, hb, ih]

theorem lookupA_updateA_ne {α : Type} (l : List (String × α)) (k k' : String)
    (f : α → α) (h : k' ≠ k) :
    lookupA (updateA l k f) k' = lookupA l k' := by
  induction l with
  | nil => rfl
  | cons q t ih =>
    rw [updateA_cons]
    cases hb : q.1 == k
    · cases hb' : q.1 == k' <;> simp [lookupA_cons, hb, hb', ih]
    · have hq : q.1 = k := by simpa using hb
      have : ¬(q.1 == k') = true := by
        simp [hq]
        exact fun hk => h hk.symm
      simp [lookupA_cons, hb, this, ih]

theorem lookupA_insertA_self {α : Type} (l : List (String × α)) (k : String)
    (v : α) : lookupA (insertA l k v) k = some v := by
  simp [insertA, lookupA_cons]

theorem lookupA_insertA_ne {α : Type} (l : List (String × α)) (k k' : String)
    (v : α) (h : k' ≠ k) : lookupA (insertA l k v) k' = lookupA l k' := by
  have : ¬(k == k') = true := by simpa using fun hk => h hk.symm
  simp [insertA, lookupA_cons, this]

/-- With present, non-empty headers, a matching signature and a parseable
body, the webhook reduces to `webhookBody` on the parsed event. -/
theorem handleCallback_valid (hmac : String → String → String)
    (parse : String → Option Event) (secret : String) (now : Nat)
    (rawBody sig ts : String) (st : Store) (ev : Event)
    (hsig : sig ≠ "") (hts : ts ≠ "")
    (hmatch : hmac secret (ts ++ rawBody) = sig)
    (hparse : parse rawBody = some ev) :
    handleCallback hmac parse secret now rawBody (some sig) (some ts) st =
      webhookBody st now ev.paymentStatus ev.orderId := by
  simp [handleCallback, hsig, hts, hmatch, hparse]

/-- A SUCCESS event for an existing, not-yet-completed order reaches the
settlement batch. -/
theorem webhookBody_success_settles (st : Store) (now : Nat) (oid : String)
    (order : Order) (horder : lookupA st.orders oid = some order)
    (hnc : order.status ≠ OrderStatus.completed) :
    webhookBody st now (some "SUCCESS") (some oid) = settle st oid order now := by
  simp [webhookBody, horder, hnc]

/-- The idempotency gate: a SUCCESS event for an already-completed order
acknowledges `already_completed` and leaves the store unchanged. -/
theorem webhookBody_success_completed (st : Store) (now : Nat) (oid : String)
    (order : Order) (horder : lookupA st.orders oid = some order)
    (hc : order.status = OrderStatus.completed) :
    webhookBody st now (some "SUCCESS") (some oid) = (st, Ack.alreadyCompleted) := by
  simp [webhookBody, horder, hc]

/-- The settlement batch spelled out, when the three referenced documents
exist. -/
theorem settle_eq (st : Store) (oid : String) (order : Order) (now : Nat)
    (seller : User) (product : Product) (buyer : User)
    (hs : lookupA st.users order.sellerId = some seller)
    (hp : lookupA st.products order.productId = some product)
    (hb : lookupA st.users order.buyerId = some buyer) :
    settle st oid order now =
      ({ st with
          orders := updateA st.orders oid (fun o =>
            { o with
                status := OrderStatus.completed
                platformFee := some (order.amount * (commissionOf st.config / 100))
                sellerEarning := some (order.amount - order.amount * (commissionOf st.config / 100))
                completedAt := some now }),
          users := updateA
            (updateA st.users order.sellerId (fun u =>
              { u with
                  walletBalance := u.walletBalance +
                    (order.amount - order.amount * (commissionOf st.config / 100))
                  totalEarnings := u.totalEarnings +
                    (order.amount - order.amount * (commissionOf st.config / 100)) }))
            order.buyerId (fun u =>
              { u with
                  purchases :=
                    if order.productId ∈ u.purchases then u.purchases
                    else u.purchases ++ [order.productId] }),
          products := updateA st.products order.productId (fun p =>
            { p with sales := p.sales + 1 }) },
       Ack.ok) := by
  simp [settle, hs, hp, hb]

/-- `arrayUnion` always leaves the element in the list. -/
theorem mem_arrayUnion (l : List String) (x : String) :
    x ∈ (if x ∈ l then l else l ++ [x]) := by
  by_cases h : x ∈ l <;> simp [h]

/-- Full specification of a SUCCESS delivery on a not-yet-completed order:
the order record after settlement, the seller wallet and earnings credit,
the sale-counter bump, the buyer purchase set, the no-op second delivery,
and the fixed point of iterated delivery. -/
theorem settlement_spec (hmac : String → String → String)
    (parse : String → Option Event) (secret : String) (now : Nat)
    (rawBody sig ts : String) (st : Store) (oid : String) (order : Order)
    (seller buyer : User) (product : Product)
    (hsig : sig ≠ "") (hts : ts ≠ "")
    (hmatch : hmac secret (ts ++ rawBody) = sig)
    (hparse : parse rawBody =
      some { paymentStatus := some "SUCCESS", orderId := some oid })
    (horder : lookupA st.orders oid = some order)
    (hnc : order.status ≠ OrderStatus.completed)
    (hseller : lookupA st.users order.sellerId = some seller)
    (hprod : lookupA st.products order.productId = some product)
    (hbuyer : lookupA st.users order.buyerId = some buyer) :
    (lookupA (handleCallback hmac parse secret now rawBody (some sig)
        (some ts) st).1.orders oid =
      some { order with
        status := OrderStatus.completed
        platformFee := some (order.amount * (commissionOf st.config / 100))
        sellerEarning :=
          some (order.amount - order.amount * (commissionOf st.config / 100))
        completedAt := some now }) ∧
    ((lookupA (handleCallback hmac parse secret now rawBody (some sig)
        (some ts) st).1.users order.sellerId).map User.walletBalance =
      some (seller.walletBalance +
        (order.amount - order.amount * (commissionOf st.config / 100)))) ∧
    ((lookupA (handleCallback hmac parse secret now rawBody (some sig)
        (some ts) st).1.users order.sellerId).map User.totalEarnings =
      some (seller.totalEarnings +
        (order.amount - order.amount * (commissionOf st.config / 100)))) ∧
    ((lookupA (handleCallback hmac parse secret now rawBody (some sig)
        (some ts) st).1.products order.productId).map Product.sales =
      some (product.sales + 1)) ∧
    (∃ buyer1, lookupA (handleCallback hmac parse secret now rawBody (some sig)
        (some ts) st).1.users order.buyerId = some buyer1 ∧
      order.productId ∈ buyer1.purchases) ∧
    (handleCallback hmac parse secret now rawBody (some sig) (some ts)
        ((handleCallback hmac parse secret now rawBody (some sig) (some ts)
          st).1) =
      ((handleCallback hmac parse secret now rawBody (some sig) (some ts)
          st).1, Ack.alreadyCompleted)) ∧
    (∀ n : Nat, 1 ≤ n →
      (fun s => (handleCallback hmac parse secret now rawBody (some sig)
        (some ts) s).1)^[n] st =
      (handleCallback hmac parse secret now rawBody (some sig) (some ts)
        st).1) := by
  have hcall := handleCallback_valid hmac parse secret now rawBody sig ts st
    _ hsig hts hmatch hparse
  rw [webhookBody_success_settles st now oid order horder hnc,
    settle_eq st oid order now seller product buyer hseller hprod hbuyer]
    at hcall
  have hst1 : (handleCallback hmac parse secret now rawBody (some sig)
      (some ts) st).1 = _ := congrArg Prod.fst hcall
  have hord1 : lookupA (handleCallback hmac parse secret now rawBody (some sig)
      (some ts) st).1.orders oid =
      some { order with
        status := OrderStatus.completed
        platformFee := some (order.amount * (commissionOf st.config / 100))
        sellerEarning :=
          some (order.amount - order.amount * (commissionOf st.config / 100))
        completedAt := some now } := by
    rw [hst1]
    dsimp only
    rw [lookupA_updateA_self, horder]
    rfl
  have hsecond : handleCallback hmac parse secret now rawBody (some sig)
      (some ts) ((handleCallback hmac parse secret now rawBody (some sig)
        (some ts) st).1) =
      ((handleCallback hmac parse secret now rawBody (some sig) (some ts)
        st).1, Ack.alreadyCompleted) := by
    rw [handleCallback_valid hmac parse secret now rawBody sig ts _ _ hsig hts
      hmatch hparse]
    exact webhookBody_success_completed _ now oid _ hord1 rfl
  refine ⟨hord1, ?_, ?_, ?_, ?_, hsecond, ?_⟩
  · rw [hst1]
    dsimp only
    by_cases hsb : order.sellerId = order.buyerId
    · rw [← hsb, lookupA_updateA_self, lookupA_updateA_self, hseller]
      rfl
    · rw [lookupA_updateA_ne _ _ _ _ hsb, lookupA_updateA_self, hseller]
      rfl
  · rw [hst1]
    dsimp only
    by_cases hsb : order.sellerId = order.buyerId
    · rw [← hsb, lookupA_updateA_self, lookupA_updateA_self, hseller]
      rfl
    · rw [lookupA_updateA_ne _ _ _ _ hsb, lookupA_updateA_self, hseller]
      rfl
  · rw [hst1]
    dsimp only
    rw [lookupA_updateA_self, hprod]
    rfl
  · rw [hst1]
    dsimp only
    by_cases hsb : order.buyerId = order.sellerId
    · rw [lookupA_updateA_self, hsb, lookupA_updateA_self, hseller]
      exact ⟨_, rfl, mem_arrayUnion _ _⟩
    · rw [lookupA_updateA_self, lookupA_updateA_ne _ _ _ _ hsb, hbuyer]
      exact ⟨_, rfl, mem_arrayUnion _ _⟩
  · intro n hn
    obtain ⟨m, rfl⟩ : ∃ m, n = m + 1 :=
      ⟨n - 1, (Nat.succ_pred_eq_of_pos hn).symm⟩
    rw [Function.iterate_succ_apply]
    exact Function.iterate_fixed (congrArg Prod.fst hsecond) m

/-- C3: for every order whose status is `completed`, a subsequent validly
signed FAILED delivery for that order returns the store unchanged (in
particular the order document is entirely unchanged — no status change, no
`failedAt`, no other field) with an `ok` acknowledgement. -/
theorem failed_after_completed_noop (hmac : String → String → String)
    (parse : String → Option Event) (secret : String) (now : Nat)
    (rawBody sig ts : String) (st : Store) (oid : String) (order : Order)
    (hsig : sig ≠ "") (hts : ts ≠ "")
    (hmatch : hmac secret (ts ++ rawBody) = sig)
    (hparse : parse rawBody =
      some { paymentStatus := some "FAILED", orderId := some oid })
    (horder : lookupA st.orders oid = some order)
    (hc : order.status = OrderStatus.completed) :
    handleCallback hmac parse secret now rawBody (some sig) (some ts) st =
      (st, Ack.ok) := by
  rw [handleCallback_valid hmac parse secret now rawBody sig ts st _ hsig hts
    hmatch hparse]
  simp [webhookBody, horder, hc]

/-- C4 (amended): `completed` is terminal — a delivery of ANY payment
status for an order whose status is `completed` leaves the store (hence
the order and its timestamps) unchanged.  The original claim also asserted
that `failed` is terminal, which the counterexample refutes: a SUCCESS
delivered after `failed` re-settles the order. -/
theorem completed_terminal_any_status (hmac : String → String → String)
    (parse : String → Option Event) (secret : String) (now : Nat)
    (rawBody sig ts : String) (st : Store) (oid : String) (order : Order)
    (ev : Event)
    (hsig : sig ≠ "") (hts : ts ≠ "")
    (hmatch : hmac secret (ts ++ rawBody) = sig)
    (hparse : parse rawBody = some ev)
    (hoid : ev.orderId = some oid)
    (horder : lookupA st.orders oid = some order)
    (hc : order.status = OrderStatus.completed) :
    (handleCallback hmac parse secret now rawBody (some sig) (some ts)
      st).1 = st := by
  rw [handleCallback_valid hmac parse secret now rawBody sig ts st ev hsig hts
    hmatch hparse, hoid]
  simp only [webhookBody, horder, hc]
  split_ifs <;> rfl

/-- C6: whenever a signature or timestamp header is missing (or empty,
which the code treats as missing) or the supplied signature differs from
the recomputed HMAC over `timestamp ++ rawBody`, the webhook leaves the
store untouched and acknowledges with a rejection reason
(`signature_missing` or `invalid_signature`) at transport-success status. -/
theorem invalid_signature_no_mutation (hmac : String → String → String)
    (parse : String → Option Event) (secret : String) (now : Nat)
    (rawBody : String) (sig ts : Option String) (st : Store)
    (h : ∀ s t, sig = some s → ts = some t → s ≠ "" → t ≠ "" →
      hmac secret (t ++ rawBody) ≠ s) :
    (handleCallback hmac parse secret now rawBody sig ts st).1 = st ∧
    ((handleCallback hmac parse secret now rawBody sig ts st).2 =
        Ack.signatureMissing ∨
      (handleCallback hmac parse secret now rawBody sig ts st).2 =
        Ack.invalidSignature) := by
  match sig, ts with
  | none, none => exact ⟨rfl, Or.inl rfl⟩
  | none, some t => exact ⟨rfl, Or.inl rfl⟩
  | some s, none => exact ⟨rfl, Or.inl rfl⟩
  | some s, some t =>
    by_cases hempty : s = "" ∨ t = ""
    · have heq : handleCallback hmac parse secret now rawBody (some s)
          (some t) st = (st, Ack.signatureMissing) := by
        simp only [handleCallback, if_pos hempty]
      rw [heq]
      exact ⟨rfl, Or.inl rfl⟩
    · push_neg at hempty
      have hne := h s t rfl rfl hempty.1 hempty.2
      have heq : handleCallback hmac parse secret now rawBody (some s)
          (some t) st = (st, Ack.invalidSignature) := by
        simp [handleCallback, hempty.1, hempty.2, hne]
      rw [heq]
      exact ⟨rfl, Or.inr rfl⟩

/-- C7 (amended): the creation-time guard holds — `initiate` rejects with
`AlreadyPurchased` (409) whenever a completed order already exists for the
(buyer, product) pair.  The global at-most-one-completed-order invariant
the claim derives from it fails (see the counterexample): two pending
orders created before either settles can both complete. -/
theorem initiate_rejects_when_completed (st : Store) (uid pid nid : String)
    (gw : Option String) (now : Nat) (product : Product) (u : User)
    (hp : lookupA st.products pid = some product)
    (hu : lookupA st.users uid = some u)
    (happ : product.status = "approved")
    (hdup : hasCompletedOrder st.orders uid pid = true) :
    initiate st uid (some pid) nid gw now = (st, CreateRes.alreadyPurchased) := by
  simp [initiate, hp, hu, happ, hdup]

/-- `initiate` either leaves the store unchanged or the gateway call
returned a session. -/
theorem initiate_session_or_unchanged (st : Store) (uid : String)
    (productId : Option String) (nid : String) (gw : Option String)
    (now : Nat) :
    (initiate st uid productId nid gw now).1 = st ∨ ∃ s, gw = some s := by
  unfold initiate
  cases productId with
  | none => exact Or.inl (by trivial)
  | some pid =>
    cases hp : lookupA st.products pid with
    | none => simp only [hp]; exact Or.inl (by trivial)
    | some product =>
      simp only [hp]
      cases hu : lookupA st.users uid with
      | none => simp only [hu]; exact Or.inl (by trivial)
      | some u =>
        simp only [hu]
        by_cases happ : product.status ≠ "approved"
        · simp only [if_pos happ]
          exact Or.inl (by trivial)
        · simp only [if_neg happ]
          by_cases hdup : hasCompletedOrder st.orders uid pid
          · simp only [if_pos hdup]
            exact Or.inl (by trivial)
          · simp only [if_neg hdup]
            cases gw with
            | none => exact Or.inl (by trivial)
            | some s => exact Or.inr ⟨s, rfl⟩

/-- C8: when the gateway session-creation call fails on the initiation
path (all earlier checks passed), no Order is persisted — the store is
returned unchanged with a `GatewayError` (502); and in general an
`initiate` call that changes the store at all had a successful gateway
session. -/
theorem gateway_failure_no_persist (st : Store) (uid pid nid : String)
    (now : Nat) (product : Product) (u : User)
    (hp : lookupA st.products pid = some product)
    (hu : lookupA st.users uid = some u)
    (happ : product.status = "approved")
    (hdup : hasCompletedOrder st.orders uid pid = false) :
    initiate st uid (some pid) nid none now = (st, CreateRes.gatewayError) ∧
    ∀ (productId : Option String) (nid' : String) (gw : Option String)
      (now' : Nat), (initiate st uid productId nid' gw now').1 ≠ st →
        ∃ s, gw = some s := by
  constructor
  · simp [initiate, hp, hu, happ, hdup]
  · intro productId nid' gw now' hch
    rcases initiate_session_or_unchanged st uid productId nid' gw now' with
      h | h
    · exact absurd h hch
    · exact h

/-- C9: for a completed purchase of a product whose stored envelope
decrypts back to the original plaintext location (`dec` inverting `enc` is
hypothesised, the cipher being an external primitive), issuing a token and
redeeming it once before expiry redirects to exactly the original
location, and a second sequential redemption of the same token returns
`Gone` with no further change. -/
theorem download_token_roundtrip (enc dec : String → String) (st : Store)
    (uid pid tok plain : String) (product : Product) (now now2 now3 : Nat)
    (hinv : dec (enc plain) = plain)
    (hdup : hasCompletedOrder st.orders uid pid = true)
    (hp : lookupA st.products pid = some product)
    (hlink : product.downloadLink = some (enc plain))
    (hne : enc plain ≠ "")
    (hexp : now2 ≤ now + 600000) :
    ∃ st1, requestToken dec st uid pid tok now = (st1, TokenRes.issued tok) ∧
      ∃ st2, redeem st1 tok now2 = (st2, RedeemRes.redirect plain) ∧
        redeem st2 tok now3 = (st2, RedeemRes.gone) := by
  have h1 : requestToken dec st uid pid tok now =
      ({ st with
          downloadTokens := insertA st.downloadTokens tok
            (issuedToken uid pid tok (dec (enc plain)) now) },
       TokenRes.issued tok) := by
    simp [requestToken, hdup, hp, hlink, hne]
  refine ⟨_, h1, ?_⟩
  have h2 : redeem ({ st with
        downloadTokens := insertA st.downloadTokens tok
          (issuedToken uid pid tok (dec (enc plain)) now) } : Store) tok now2 =
      ({ st with
          downloadTokens := updateA (insertA st.downloadTokens tok
            (issuedToken uid pid tok (dec (enc plain)) now)) tok
            (markUsed now2) },
       RedeemRes.redirect plain) := by
    unfold redeem
    rw [show lookupA (insertA st.downloadTokens tok
        (issuedToken uid pid tok (dec (enc plain)) now)) tok =
      some (issuedToken uid pid tok (dec (enc plain)) now) from
      lookupA_insertA_self _ _ _]
    simp [issuedToken, Nat.not_lt.mpr hexp, hinv]
  refine ⟨_, h2, ?_⟩
  have h3 : lookupA (updateA (insertA st.downloadTokens tok
      (issuedToken uid pid tok (dec (enc plain)) now)) tok
      (markUsed now2)) tok =
      some (markUsed now2 (issuedToken uid pid tok (dec (enc plain)) now)) := by
    rw [lookupA_updateA_self, lookupA_insertA_self]
    rfl
  unfold redeem
  rw [h3]
  rfl

/-- A keyed update whose function preserves `g` preserves the `g`-view of
every lookup. -/
theorem lookupA_updateA_map {α β : Type} (l : List (String × α)) (k : String)
    (f : α → α) (g : α → β) (hg : ∀ x, g (f x) = g x) (k' : String) :
    (lookupA (updateA l k f) k').map g = (lookupA l k').map g := by
  by_cases h : k' = k
  · subst h
    rw [lookupA_updateA_self]
    cases lookupA l k' with
    | none => rfl
    | some x => simp [hg]
  · rw [lookupA_updateA_ne _ _ _ _ h]

/-- Deleting key `pid` empties that key and leaves every other lookup
unchanged. -/
theorem lookupA_filter_ne {α : Type} (l : List (String × α)) (pid k : String)
    (h : k ≠ pid) :
    lookupA (l.filter (fun p => p.1 != pid)) k = lookupA l k := by
  induction l with
  | nil => rfl
  | cons q t ih =>
    rw [List.filter_cons]
    cases hb : q.1 == pid
    · have hkeep : (q.1 != pid) = true := by simp [bne, hb]
      rw [if_pos hkeep, lookupA_cons, lookupA_cons, ih]
    · have hq : q.1 = pid := by simpa using hb
      have hdrop : ¬(q.1 != pid) = true := by simp [bne, hb]
      have hcond : ¬(q.1 == k) = true := by
        simp [hq]
        exact fun hk => h hk.symm
      rw [if_neg hdrop, ih, lookupA_cons, if_neg hcond]

/-- Deleting key `pid` removes every binding for it. -/
theorem lookupA_filter_self {α : Type} (l : List (String × α))
    (pid : String) :
    lookupA (l.filter (fun p => p.1 != pid)) pid = none := by
  induction l with
  | nil => rfl
  | cons q t ih =>
    rw [List.filter_cons]
    cases hb : q.1 == pid
    · have hkeep : (q.1 != pid) = true := by simp [bne, hb]
      rw [if_pos hkeep, lookupA_cons, if_neg (by simp [hb]), ih]
    · have hdrop : ¬(q.1 != pid) = true := by simp [bne, hb]
      rw [if_neg hdrop, ih]

/-- `initiate` never writes the products collection. -/
theorem initiate_products_eq (st : Store) (uid : String)
    (productId : Option String) (nid : String) (gw : Option String)
    (now : Nat) :
    (initiate st uid productId nid gw now).1.products = st.products := by
  unfold initiate
  cases productId with
  | none => rfl
  | some pid =>
    cases hp : lookupA st.products pid with
    | none => simp only [hp]
    | some product =>
      simp only [hp]
      cases hu : lookupA st.users uid with
      | none => simp only [hu]
      | some u =>
        simp only [hu]
        by_cases happ : product.status ≠ "approved"
        · simp only [if_pos happ]
        · simp only [if_neg happ]
          by_cases hdup : hasCompletedOrder st.orders uid pid
          · simp only [if_pos hdup]
          · simp only [if_neg hdup]
            cases gw with
            | none => rfl
            | some s => rfl

/-- `requestToken` never writes the products collection. -/
theorem requestToken_products_eq (dec : String → String) (st : Store)
    (uid pid tok : String) (now : Nat) :
    (requestToken dec st uid pid tok now).1.products = st.products := by
  unfold requestToken
  by_cases hd : hasCompletedOrder st.orders uid pid
  · simp only [if_pos hd]
    cases hp : lookupA st.products pid with
    | none => simp only [hp]
    | some product =>
      simp only [hp]
      cases hl : product.downloadLink with
      | none => simp only [hl]
      | some e =>
        simp only [hl]
        by_cases he : e = ""
        · simp only [if_pos he]
        · simp only [if_neg he]
  · simp only [if_neg hd]

/-- `redeem` never writes the products collection. -/
theorem redeem_products_eq (st : Store) (tok : String) (now : Nat) :
    (redeem st tok now).1.products = st.products := by
  unfold redeem
  cases ht : lookupA st.downloadTokens tok with
  | none => simp only [ht]
  | some td =>
    simp only [ht]
    cases hu : td.used
    · simp only [hu, Bool.false_eq_true, if_false]
      by_cases he : td.expiresAt < now
      · simp only [if_pos he]
      · simp only [if_neg he]
    · simp only [hu, if_true]

/-- The settlement batch touches the products collection only through the
sale-counter bump, which keeps every download link. -/
theorem settle_products_link (st : Store) (oid : String) (order : Order)
    (now : Nat) (k : String) :
    (lookupA (settle st oid order now).1.products k).map Product.downloadLink
      = (lookupA st.products k).map Product.downloadLink := by
  unfold settle
  split
  · dsimp only
    exact lookupA_updateA_map st.products order.productId
      (fun p => { p with sales := p.sales + 1 }) Product.downloadLink
      (fun _ => rfl) k
  · rfl

/-- The webhook body keeps every stored download link. -/
theorem webhookBody_products_link (st : Store) (now : Nat)
    (paymentStatus : Option String) (orderId : Option String) (k : String) :
    (lookupA (webhookBody st now paymentStatus orderId).1.products k).map
      Product.downloadLink =
      (lookupA st.products k).map Product.downloadLink := by
  unfold webhookBody
  cases orderId with
  | none => rfl
  | some oid =>
    cases ho : lookupA st.orders oid with
    | none => simp only [ho]
    | some order =>
      simp only [ho]
      by_cases hps : paymentStatus = some "SUCCESS"
      · simp only [if_pos hps]
        by_cases hc : order.status = OrderStatus.completed
        · simp only [if_pos hc]
        · simp only [if_neg hc]
          exact settle_products_link st oid order now k
      · simp only [if_neg hps]
        by_cases hpf : paymentStatus = some "FAILED"
        · simp only [if_pos hpf]
          by_cases hc : order.status = OrderStatus.completed
          · simp only [if_pos hc]
          · simp only [if_neg hc]
        · simp only [if_neg hpf]

/-- A webhook delivery keeps every stored download link. -/
theorem handleCallback_products_link (hmac : String → String → String)
    (parse : String → Option Event) (secret : String) (now : Nat)
    (rawBody : String) (sig ts : Option String) (st : Store) (k : String) :
    (lookupA (handleCallback hmac parse secret now rawBody sig ts
        st).1.products k).map Product.downloadLink =
      (lookupA st.products k).map Product.downloadLink := by
  unfold handleCallback
  match sig, ts with
  | none, none => rfl
  | none, some t => rfl
  | some s, none => rfl
  | some s, some t =>
    by_cases hx : s = "" ∨ t = ""
    · simp only [if_pos hx]
    · simp only [if_neg hx]
      by_cases hm : hmac secret (t ++ rawBody) = s
      · simp only [if_pos hm]
        cases hp : parse rawBody with
        | none => rfl
        | some ev =>
          simp only [hp]
          exact webhookBody_products_link st now ev.paymentStatus ev.orderId k
      · simp only [if_neg hm]

/-- A product-creation call either leaves a lookup of the products
collection with its old download link or stores the envelope of the
submitted location under the fresh id. -/
theorem createProduct_products_link (enc : String → String) (st : Store)
    (uid t d cat link nid : String) (price : ℚ) (dp : Option ℚ)
    (k : String) :
    (lookupA (createProduct enc st uid t d price dp cat link
        nid).1.products k).map Product.downloadLink =
      (lookupA st.products k).map Product.downloadLink ∨
    (lookupA (createProduct enc st uid t d price dp cat link
        nid).1.products k).map Product.downloadLink =
      some (some (enc link)) := by
  unfold createProduct
  cases hu : lookupA st.users uid with
  | none => left; simp only [hu]
  | some u =>
    simp only [hu]
    by_cases hr : u.role ≠ "seller"
    · left; simp only [if_pos hr]
    · simp only [if_neg hr]
      by_cases hv : t = "" ∨ d = "" ∨ price = 0 ∨ cat = "" ∨ link = ""
      · left; simp only [if_pos hv]
      · simp only [if_neg hv]
        by_cases hk : k = nid
        · subst hk
          right
          rw [show (lookupA (insertA st.products k _) k) = _ from
            lookupA_insertA_self _ _ _]
          rfl
        · left
          rw [lookupA_insertA_ne _ _ _ _ hk]

/-- From an unchanged download-link view, a product found after the step
was already present with the same link before it. -/
theorem link_preserved_cases {l l2 : List (String × Product)} (k : String)
    (p : Product)
    (hmap : (lookupA l2 k).map Product.downloadLink =
      (lookupA l k).map Product.downloadLink)
    (hk : lookupA l2 k = some p) :
    ∃ p0, lookupA l k = some p0 ∧ p0.downloadLink = p.downloadLink := by
  rw [hk] at hmap
  cases hq : lookupA l k with
  | none => rw [hq] at hmap; simp at hmap
  | some p0 =>
    rw [hq] at hmap
    simp at hmap
    exact ⟨p0, rfl, hmap.symm⟩

/-- Every modelled operation preserves the products-encrypted invariant. -/
theorem step_preserves_products_encrypted (enc dec : String → String)
    {st st2 : Store} (h : Step enc dec st st2)
    (hinv : ProductsEncrypted enc st) : ProductsEncrypted enc st2 := by
  cases h with
  | doInitiate uid productId nid gw now =>
    intro k p hk e he
    rw [initiate_products_eq] at hk
    exact hinv k p hk e he
  | doWebhook hmac parse secret now rawBody sig ts =>
    intro k p hk e he
    obtain ⟨p0, hq, hl⟩ := link_preserved_cases k p
      (handleCallback_products_link hmac parse secret now rawBody sig ts st k)
      hk
    exact hinv k p0 hq e (by rw [hl]; exact he)
  | doCreateProduct uid t d cat link nid price dp =>
    intro k p hk e he
    rcases createProduct_products_link enc st uid t d cat link nid price dp k
      with hcase | hcase
    · obtain ⟨p0, hq, hl⟩ := link_preserved_cases k p hcase hk
      exact hinv k p0 hq e (by rw [hl]; exact he)
    · rw [hk] at hcase
      simp at hcase
      rw [hcase] at he
      exact ⟨link, (Option.some_inj.mp he).symm⟩
  | doClick pid =>
    intro k p hk e he
    obtain ⟨p0, hq, hl⟩ := link_preserved_cases k p
      (lookupA_updateA_map st.products pid
        (fun q => { q with clicks := q.clicks + 1 }) Product.downloadLink
        (fun _ => rfl) k) hk
    exact hinv k p0 hq e (by rw [hl]; exact he)
  | doDelete pid =>
    intro k p hk e he
    by_cases hkp : k = pid
    · subst hkp
      rw [show (deleteProduct st k).products =
          st.products.filter (fun p => p.1 != k) from rfl,
        lookupA_filter_self] at hk
      exact absurd hk (by simp)
    · rw [show (deleteProduct st pid).products =
          st.products.filter (fun p => p.1 != pid) from rfl,
        lookupA_filter_ne _ _ _ hkp] at hk
      exact hinv k p hk e he
  | doRequestToken uid pid tok now =>
    intro k p hk e he
    rw [requestToken_products_eq] at hk
    exact hinv k p hk e he
  | doRedeem tok now =>
    intro k p hk e he
    rw [redeem_products_eq] at hk
    exact hinv k p hk e he

/-- C2 (amended): at every state reachable — through any sequence of the
modelled operations: initiation, webhook deliveries, product creation,
clicks, product deletion, token issuance and redemption — from a state
whose products all hold only encryption envelopes, the products collection
still holds only encryption envelopes; `createProduct` always stores the
envelope `enc link` of the submitted location; but the `download_tokens`
document written by `requestToken` stores the DECRYPTED location at rest
(the original no-plaintext-at-rest claim fails there, see the
counterexample). -/
theorem at_rest_storage_contents (enc dec : String → String) (st : Store)
    (uid : String) (u : User) (t d cat link nid : String) (price : ℚ)
    (dp : Option ℚ) (st2 : Store) (uid2 pid2 tok : String) (now : Nat)
    (product2 : Product) (e : String)
    (hu : lookupA st.users uid = some u) (hrole : u.role = "seller")
    (ht : t ≠ "") (hd : d ≠ "") (hpr : price ≠ 0) (hcat : cat ≠ "")
    (hl : link ≠ "")
    (hdup : hasCompletedOrder st2.orders uid2 pid2 = true)
    (hp2 : lookupA st2.products pid2 = some product2)
    (hlink2 : product2.downloadLink = some e) (he : e ≠ "") :
    (∀ st0 st3, ProductsEncrypted enc st0 → Reachable enc dec st0 st3 →
      ProductsEncrypted enc st3) ∧
    ((lookupA (createProduct enc st uid t d price dp cat link nid).1.products
        nid).map Product.downloadLink = some (some (enc link))) ∧
    ((lookupA (requestToken dec st2 uid2 pid2 tok now).1.downloadTokens
        tok).map DownloadToken.decryptedLink = some (dec e)) := by
  refine ⟨?_, ?_, ?_⟩
  · intro st0 st3 h0 hr
    induction hr with
    | refl => exact h0
    | tail _ hstep ih =>
      exact step_preserves_products_encrypted enc dec hstep ih
  · have hcreate : createProduct enc st uid t d price dp cat link nid =
        ({ st with
            products := insertA st.products nid
              { title := t
                sellerId := uid
                price := price
                discountPrice :=
                  match dp with
                  | none => none
                  | some v => if v = 0 then none else some v
                status := "approved"
                clicks := 0
                sales := 0
                downloadLink := some (enc link) } },
         ProductRes.created nid) := by
      simp [createProduct, hu, hrole, ht, hd, hpr, hcat, hl]
    rw [hcreate]
    dsimp only
    rw [lookupA_insertA_self]
    rfl
  · have hreq : requestToken dec st2 uid2 pid2 tok now =
        ({ st2 with
            downloadTokens := insertA st2.downloadTokens tok
              (issuedToken uid2 pid2 tok (dec e) now) },
         TokenRes.issued tok) := by
      simp [requestToken, hdup, hp2, hlink2, he]
    rw [hreq]
    dsimp only
    rw [lookupA_insertA_self]
    rfl

/-- C5: settling a pending order with stored amount 1000 under commission
rate 10 yields `platformFee = 100` and `sellerEarning = 900`, credits the
seller wallet and total earnings by exactly 900, bumps the product sale
counter by one and adds the product to the buyer purchase set.  The
product (hence its live price) is arbitrary: the fee is computed from the
stored order amount only. -/
theorem settlement_concrete_values (hmac : String → String → String)
    (parse : String → Option Event) (secret : String) (now : Nat)
    (rawBody sig ts : String) (st : Store) (oid : String) (order : Order)
    (seller buyer : User) (product : Product)
    (hsig : sig ≠ "") (hts : ts ≠ "")
    (hmatch : hmac secret (ts ++ rawBody) = sig)
    (hparse : parse rawBody =
      some { paymentStatus := some "SUCCESS", orderId := some oid })
    (horder : lookupA st.orders oid = some order)
    (hpend : order.status = OrderStatus.pending)
    (hamount : order.amount = 1000)
    (hrate : st.config = some { commissionRate := some 10 })
    (hseller : lookupA st.users order.sellerId = some seller)
    (hprod : lookupA st.products order.productId = some product)
    (hbuyer : lookupA st.users order.buyerId = some buyer) :
    (lookupA (handleCallback hmac parse secret now rawBody (some sig)
        (some ts) st).1.orders oid =
      some { order with
        status := OrderStatus.completed
        platformFee := some 100
        sellerEarning := some 900
        completedAt := some now }) ∧
    ((lookupA (handleCallback hmac parse secret now rawBody (some sig)
        (some ts) st).1.users order.sellerId).map User.walletBalance =
      some (seller.walletBalance + 900)) ∧
    ((lookupA (handleCallback hmac parse secret now rawBody (some sig)
        (some ts) st).1.users order.sellerId).map User.totalEarnings =
      some (seller.totalEarnings + 900)) ∧
    ((lookupA (handleCallback hmac parse secret now rawBody (some sig)
        (some ts) st).1.products order.productId).map Product.sales =
      some (product.sales + 1)) ∧
    (∃ buyer1, lookupA (handleCallback hmac parse secret now rawBody (some sig)
        (some ts) st).1.users order.buyerId = some buyer1 ∧
      order.productId ∈ buyer1.purchases) := by
  have hnc : order.status ≠ OrderStatus.completed := by simp [hpend]
  have h := settlement_spec hmac parse secret now rawBody sig ts st oid order
    seller buyer product hsig hts hmatch hparse horder hnc hseller hprod hbuyer
  have hfee : order.amount * (commissionOf st.config / 100) = 100 := by
    rw [hamount, hrate]
    norm_num [commissionOf]
  have hearn : order.amount - order.amount * (commissionOf st.config / 100) =
      900 := by
    rw [hamount, hrate]
    norm_num [commissionOf]
  rw [hearn] at h
  rw [hfee] at h
  exact ⟨h.1, h.2.1, h.2.2.1, h.2.2.2.1, h.2.2.2.2.1⟩

/-- C10: a commission rate of exactly 0 (like a missing field or missing
config document) is falsy and falls back to the default rate 10, so a 10%
platform fee is still deducted at settlement. -/
theorem zero_commission_default (hmac : String → String → String)
    (parse : String → Option Event) (secret : String) (now : Nat)
    (rawBody sig ts : String) (st : Store) (oid : String) (order : Order)
    (seller buyer : User) (product : Product)
    (hsig : sig ≠ "") (hts : ts ≠ "")
    (hmatch : hmac secret (ts ++ rawBody) = sig)
    (hparse : parse rawBody =
      some { paymentStatus := some "SUCCESS", orderId := some oid })
    (horder : lookupA st.orders oid = some order)
    (hnc : order.status ≠ OrderStatus.completed)
    (hcfg : st.config = some { commissionRate := some 0 })
    (hseller : lookupA st.users order.sellerId = some seller)
    (hprod : lookupA st.products order.productId = some product)
    (hbuyer : lookupA st.users order.buyerId = some buyer) :
    commissionOf (some { commissionRate := some 0 }) = 10 ∧
    commissionOf (some { commissionRate := none }) = 10 ∧
    commissionOf none = 10 ∧
    lookupA (handleCallback hmac parse secret now rawBody (some sig)
        (some ts) st).1.orders oid =
      some { order with
        status := OrderStatus.completed
        platformFee := some (order.amount * (10 / 100))
        sellerEarning := some (order.amount - order.amount * (10 / 100))
        completedAt := some now } := by
  have h := settlement_spec hmac parse secret now rawBody sig ts st oid order
    seller buyer product hsig hts hmatch hparse horder hnc hseller hprod hbuyer
  have hcomm : commissionOf st.config = 10 := by
    rw [hcfg]
    simp [commissionOf]
  rw [hcomm] at h
  exact ⟨by simp [commissionOf], by simp [commissionOf], rfl, h.1⟩

/-- C4 counterexample: `failed` is not terminal.  In the concrete store
`stFailed` the order `O1` has status `failed`; a validly signed SUCCESS
delivery for it changes its status to `completed`, refuting the claim that
no delivery changes the status of a failed order. -/
theorem failed_to_completed_counterexample :
    (lookupA stFailed.orders "O1").map Order.status =
      some OrderStatus.failed ∧
    (lookupA (handleCallback hmacK parseSuccessO1 "sec" 9 "b" (some "sec|tb")
        (some "t") stFailed).1.orders "O1").map Order.status =
      some OrderStatus.completed := by decide

/-- C2 counterexample: a document written by `requestToken` holds the
plaintext download location at rest.  With the invertible cipher
`encK`/`decK` and a product whose stored envelope encrypts
`"https://example.com/file"`, the `download_tokens` document written for a
completed purchase stores exactly that plaintext location. -/
theorem token_plaintext_counterexample :
    decK (encK "https://example.com/file") = "https://example.com/file" ∧
    (lookupA (requestToken decK stPurchased "B" "P" "T" 0).1.downloadTokens
        "T").map DownloadToken.decryptedLink =
      some "https://example.com/file" := by decide

/-- C7 counterexample: two completed orders for one (buyer, product) pair
are reachable.  Initiating twice while no completed order exists creates
two pending orders `O1`, `O2` for `("B","P")`; delivering SUCCESS to each
settles both, so the final store holds two completed orders for the pair. -/
theorem duplicate_completed_orders_counterexample :
    c7step4.orders.countP (fun p =>
      p.2.buyerId == "B" && p.2.productId == "P" &&
        decide (p.2.status = OrderStatus.completed)) = 2 := by decide

/-- C1: delivering the same validly signed SUCCESS callback for an order
N ≥ 1 times settles exactly once: one seller wallet credit, one sale
counter increment, one addition to the buyer purchase set, the order ends
`completed`; every delivery after the first hits the idempotency gate
(`already_completed`) and mutates nothing — iterated delivery is fixed
after the first step. -/
theorem success_callback_idempotent (hmac : String → String → String)
    (parse : String → Option Event) (secret : String) (now : Nat)
    (rawBody sig ts : String) (st : Store) (oid : String) (order : Order)
    (seller buyer : User) (product : Product)
    (hsig : sig ≠ "") (hts : ts ≠ "")
    (hmatch : hmac secret (ts ++ rawBody) = sig)
    (hparse : parse rawBody =
      some { paymentStatus := some "SUCCESS", orderId := some oid })
    (horder : lookupA st.orders oid = some order)
    (hnc : order.status ≠ OrderStatus.completed)
    (hseller : lookupA st.users order.sellerId = some seller)
    (hprod : lookupA st.products order.productId = some product)
    (hbuyer : lookupA st.users order.buyerId = some buyer) :
    (lookupA (handleCallback hmac parse secret now rawBody (some sig)
        (some ts) st).1.orders oid =
      some { order with
        status := OrderStatus.completed
        platformFee := some (order.amount * (commissionOf st.config / 100))
        sellerEarning :=
          some (order.amount - order.amount * (commissionOf st.config / 100))
        completedAt := some now }) ∧
    ((lookupA (handleCallback hmac parse secret now rawBody (some sig)
        (some ts) st).1.users order.sellerId).map User.walletBalance =
      some (seller.walletBalance +
        (order.amount - order.amount * (commissionOf st.config / 100)))) ∧
    ((lookupA (handleCallback hmac parse secret now rawBody (some sig)
        (some ts) st).1.users order.sellerId).map User.totalEarnings =
      some (seller.totalEarnings +
        (order.amount - order.amount * (commissionOf st.config / 100)))) ∧
    ((lookupA (handleCallback hmac parse secret now rawBody (some sig)
        (some ts) st).1.products order.productId).map Product.sales =
      some (product.sales + 1)) ∧
    (∃ buyer1, lookupA (handleCallback hmac parse secret now rawBody (some sig)
        (some ts) st).1.users order.buyerId = some buyer1 ∧
      order.productId ∈ buyer1.purchases) ∧
    (handleCallback hmac parse secret now rawBody (some sig) (some ts)
        ((handleCallback hmac parse secret now rawBody (some sig) (some ts)
          st).1) =
      ((handleCallback hmac parse secret now rawBody (some sig) (some ts)
          st).1, Ack.alreadyCompleted)) ∧
    (∀ n : Nat, 1 ≤ n →
      (fun s => (handleCallback hmac parse secret now rawBody (some sig)
        (some ts) s).1)^[n] st =
      (handleCallback hmac parse secret now rawBody (some sig) (some ts)
        st).1) :=
  settlement_spec hmac parse secret now rawBody sig ts st oid order seller
    buyer product hsig hts hmatch hparse horder hnc hseller hprod hbuyer

/-- C1 witness at a concrete store: first delivery completes `O1`, the
second delivery is an `already_completed` no-op, and three deliveries
equal one. -/
theorem success_callback_idempotent_witness :
    (lookupA (handleCallback hmacK parseSuccessO1 "sec" 7 "b" (some "sec|tb")
        (some "t") stPending).1.orders "O1" =
      some { orderPending with
        status := OrderStatus.completed
        platformFee :=
          some (orderPending.amount * (commissionOf stPending.config / 100))
        sellerEarning := some (orderPending.amount -
          orderPending.amount * (commissionOf stPending.config / 100))
        completedAt := some 7 }) ∧
    (handleCallback hmacK parseSuccessO1 "sec" 7 "b" (some "sec|tb") (some "t")
        ((handleCallback hmacK parseSuccessO1 "sec" 7 "b" (some "sec|tb")
          (some "t") stPending).1) =
      ((handleCallback hmacK parseSuccessO1 "sec" 7 "b" (some "sec|tb")
          (some "t") stPending).1, Ack.alreadyCompleted)) ∧
    ((fun s => (handleCallback hmacK parseSuccessO1 "sec" 7 "b" (some "sec|tb")
        (some "t") s).1)^[3] stPending =
      (handleCallback hmacK parseSuccessO1 "sec" 7 "b" (some "sec|tb")
        (some "t") stPending).1) := by
  have h := success_callback_idempotent hmacK parseSuccessO1 "sec" 7 "b"
    "sec|tb" "t" stPending "O1" orderPending sellerK buyerK productK
    (by decide) (by decide) rfl rfl rfl (by decide) rfl rfl rfl
  exact ⟨h.1, h.2.2.2.2.2.1, h.2.2.2.2.2.2 3 (by decide)⟩

/-- C2 amended-claim witness at concrete inputs: the invariant holds at a
state reached by one concrete `createProduct` step from `stMarket`, the
created document stores the envelope, and the issued token document stores
the decrypted location. -/
theorem at_rest_storage_contents_witness :
    ProductsEncrypted encK
      (createProduct encK stMarket "S" "T1" "D" 5 none "tools" "L"
        "NP").1 ∧
    ((lookupA (createProduct encK stMarket "S" "T1" "D" 5 none "tools" "L"
        "NP").1.products "NP").map Product.downloadLink =
      some (some (encK "L"))) ∧
    ((lookupA (requestToken decK stPurchased "B" "P" "T" 0).1.downloadTokens
        "T").map DownloadToken.decryptedLink =
      some (decK (encK "https://example.com/file"))) := by
  have h := at_rest_storage_contents encK decK stMarket "S" sellerK "T1" "D"
    "tools" "L" "NP" 5 none stPurchased "B" "P" "T" 0 productEnc
    (encK "https://example.com/file") rfl rfl (by decide) (by decide)
    (by norm_num) (by decide) (by decide) (by decide) rfl rfl (by decide)
  have h0 : ProductsEncrypted encK stMarket := by
    intro k p hk e he
    rw [show stMarket.products = [("P", productK)] from rfl,
      lookupA_cons] at hk
    by_cases hb : (("P", productK).1 == k) = true
    · rw [if_pos hb] at hk
      cases hk
      simp [productK] at he
    · rw [if_neg hb] at hk
      simp [lookupA] at hk
  refine ⟨?_, h.2.1, h.2.2⟩
  exact h.1 stMarket _ h0
    (Relation.ReflTransGen.single
      (Step.doCreateProduct stMarket "S" "T1" "D" "tools" "L" "NP" 5 none))

/-- C3 witness: FAILED after completed is a no-op on a concrete store. -/
theorem failed_after_completed_noop_witness :
    handleCallback hmacK parseFailedO1 "sec" 9 "b" (some "sec|tb") (some "t")
      stCompleted = (stCompleted, Ack.ok) :=
  failed_after_completed_noop hmacK parseFailedO1 "sec" 9 "b" "sec|tb" "t"
    stCompleted "O1" orderCompleted (by decide) (by decide) rfl rfl rfl rfl

/-- C4 amended-claim witness on a concrete completed order. -/
theorem completed_terminal_any_status_witness :
    (handleCallback hmacK parseFailedO1 "sec" 9 "b" (some "sec|tb") (some "t")
      stCompleted).1 = stCompleted :=
  completed_terminal_any_status hmacK parseFailedO1 "sec" 9 "b" "sec|tb" "t"
    stCompleted "O1" orderCompleted
    { paymentStatus := some "FAILED", orderId := some "O1" }
    (by decide) (by decide) rfl rfl rfl rfl rfl

/-- C5 witness: the 1000/10% scenario on a concrete store. -/
theorem settlement_concrete_values_witness :
    (lookupA (handleCallback hmacK parseSuccessO1 "sec" 7 "b" (some "sec|tb")
        (some "t") stPending).1.orders "O1" =
      some { orderPending with
        status := OrderStatus.completed
        platformFee := some 100
        sellerEarning := some 900
        completedAt := some 7 }) ∧
    ((lookupA (handleCallback hmacK parseSuccessO1 "sec" 7 "b" (some "sec|tb")
        (some "t") stPending).1.users orderPending.sellerId).map
      User.walletBalance = some (sellerK.walletBalance + 900)) ∧
    ((lookupA (handleCallback hmacK parseSuccessO1 "sec" 7 "b" (some "sec|tb")
        (some "t") stPending).1.users orderPending.sellerId).map
      User.totalEarnings = some (sellerK.totalEarnings + 900)) ∧
    ((lookupA (handleCallback hmacK parseSuccessO1 "sec" 7 "b" (some "sec|tb")
        (some "t") stPending).1.products orderPending.productId).map
      Product.sales = some (productK.sales + 1)) := by
  have h := settlement_concrete_values hmacK parseSuccessO1 "sec" 7 "b"
    "sec|tb" "t" stPending "O1" orderPending sellerK buyerK productK
    (by decide) (by decide) rfl rfl rfl rfl rfl rfl rfl rfl rfl
  exact ⟨h.1, h.2.1, h.2.2.1, h.2.2.2.1⟩

/-- C6 witness: a wrong signature is rejected without mutation. -/
theorem invalid_signature_no_mutation_witness :
    ((handleCallback hmacK parseSuccessO1 "sec" 7 "b" (some "nope") (some "t")
      stPending).1 = stPending) ∧
    ((handleCallback hmacK parseSuccessO1 "sec" 7 "b" (some "nope") (some "t")
        stPending).2 = Ack.signatureMissing ∨
      (handleCallback hmacK parseSuccessO1 "sec" 7 "b" (some "nope") (some "t")
        stPending).2 = Ack.invalidSignature) := by
  have h := invalid_signature_no_mutation hmacK parseSuccessO1 "sec" 7 "b"
    (some "nope") (some "t") stPending (by
      intro s t hs ht hs' ht'
      cases hs
      cases ht
      decide)
  exact h

/-- C7 amended-claim witness: duplicate purchase is rejected with 409. -/
theorem initiate_rejects_when_completed_witness :
    initiate stPurchased "B" (some "P") "O9" (some "sess") 5 =
      (stPurchased, CreateRes.alreadyPurchased) :=
  initiate_rejects_when_completed stPurchased "B" "P" "O9" (some "sess") 5
    productEnc buyerK rfl rfl rfl (by decide)

/-- C8 witness: gateway failure persists nothing. -/
theorem gateway_failure_no_persist_witness :
    initiate stMarket "B" (some "P") "O1" none 0 =
      (stMarket, CreateRes.gatewayError) :=
  (gateway_failure_no_persist stMarket "B" "P" "O1" 0 productK buyerK
    rfl rfl rfl (by decide)).1

/-- C9 witness: issue, redeem once (redirect to the original location),
redeem again (`Gone`), on a concrete store and toy cipher. -/
theorem download_token_roundtrip_witness :
    ∃ st1, requestToken decK stPurchased "B" "P" "T"
        0 = (st1, TokenRes.issued "T") ∧
      ∃ st2, redeem st1 "T" 4 =
          (st2, RedeemRes.redirect "https://example.com/file") ∧
        redeem st2 "T" 999999999 = (st2, RedeemRes.gone) :=
  download_token_roundtrip encK decK stPurchased "B" "P" "T"
    "https://example.com/file" productEnc 0 4 999999999 (by decide)
    (by decide) rfl rfl (by decide) (by decide)

/-- C10 witness: rate 0 config yields a 10% fee on a concrete store. -/
theorem zero_commission_default_witness :
    commissionOf (some { commissionRate := some 0 }) = 10 ∧
    commissionOf (some { commissionRate := none }) = 10 ∧
    commissionOf none = 10 ∧
    lookupA (handleCallback hmacK parseSuccessO1 "sec" 7 "b" (some "sec|tb")
        (some "t") stZeroRate).1.orders "O1" =
      some { orderPending with
        status := OrderStatus.completed
        platformFee := some (orderPending.amount * (10 / 100))
        sellerEarning :=
          some (orderPending.amount - orderPending.amount * (10 / 100))
        completedAt := some 7 } :=
  zero_commission_default hmacK parseSuccessO1 "sec" 7 "b" "sec|tb" "t"
    stZeroRate "O1" orderPending sellerK buyerK productK (by decide)
    (by decide) rfl rfl rfl (by decide) rfl rfl rfl rfl
